import Mathlib

/-!
Shallow embedding of `src/make_feed.py` (repository appchamp/create-pg-rss).

The program fetches one HTML page, selects table rows that carry a
publication marker, extracts an episode record from each row, assembles an
RSS feed and writes it to disk.  We model:

* the parsed HTML document as a tree of element/text nodes (`Node`), with
  BeautifulSoup's `find`, `find_all`, `.get` and `.string` operations;
* `datetime.strptime(s, "%m.%d.%Y")` via CPython's `_strptime` regex
  semantics restricted to ASCII digits (month and day match one or two
  digits within range, the year exactly four digits, full-string match,
  followed by `datetime`'s range validation);
* `requests.Response.ok`, which is true exactly when the status code is
  outside 400..599 (`raise_for_status` raises only for 4xx/5xx);
* `extract_info` as a fallible function: every uncaught Python exception
  the extraction can raise (AttributeError on a missing element,
  AttributeError on `.strip()` of a `None` string, ValueError from
  `strptime`, TypeError from the attrs field validators) becomes an
  `ExtractErr` value;
* `main` as a function from the response, a wall-clock sampling function
  and the prior file state to a run result (critical log, exit code, and
  the feed file state after the run).
-/

mutual
/-- A parsed HTML DOM node: either a text node or an element with a tag
name, a list of classes (the multi-valued `class` attribute), the other
attributes, and child nodes.  `NodeForest` is the child list, kept as a
mutual inductive so that all recursions are structural and reduce. -/
inductive Node : Type where
  | text : String → Node
  | elem : String → List String → List (String × String) → NodeForest → Node
deriving DecidableEq
/-- Child list of an element node. -/
inductive NodeForest : Type where
  | nil : NodeForest
  | cons : Node → NodeForest → NodeForest
deriving DecidableEq
end

/-- Build a `NodeForest` from a list of nodes (fixture convenience). -/
def forest : List Node → NodeForest
  | [] => .nil
  | n :: rest => .cons n (forest rest)

mutual
/-- All proper descendants of a node, in document (preorder) order.  This
is the order in which BeautifulSoup's `find` and `find_all` traverse. -/
def Node.descendants : Node → List Node
  | .text _ => []
  | .elem _ _ _ cs => NodeForest.descList cs
/-- Preorder listing of a forest together with all descendants. -/
def NodeForest.descList : NodeForest → List Node
  | .nil => []
  | .cons n rest => n :: (Node.descendants n ++ NodeForest.descList rest)
end

/-- Does the node have the given tag name (text nodes never match)?
Models the name filter of `soup("tr")`. -/
def isNamed (nm : String) : Node → Bool
  | .elem n _ _ _ => n == nm
  | .text _ => false

/-- Does the node have the given tag name and carry the given class?
Models BeautifulSoup's `find(name, class_=cls)` match condition: the tag
name must equal `nm` and `cls` must be one of the element's classes. -/
def isElemOf (nm cls : String) : Node → Bool
  | .elem n cs _ _ => n == nm && cs.contains cls
  | .text _ => false

/-- BeautifulSoup `tag.find(nm, class_=cls)`: the first descendant, in
document order, with tag name `nm` and class `cls`. -/
def find (nm cls : String) (n : Node) : Option Node :=
  (Node.descendants n).find? (isElemOf nm cls)

/-- BeautifulSoup `tag.get(key)`: attribute lookup returning `None` when
the attribute is absent. -/
def getAttr (key : String) : Node → Option String
  | .elem _ _ as _ => (as.find? (fun p => p.1 == key)).map (fun p => p.2)
  | .text _ => none

mutual
/-- BeautifulSoup's `.string` property: defined when the tag has exactly
one child that is a text node (directly or through a chain of single
children); `None` otherwise — in particular `None` for a childless tag. -/
def nodeString : Node → Option String
  | .text s => some s
  | .elem _ _ _ cs => forestSingleString cs
/-- Helper for `nodeString`: the string of a one-element forest. -/
def forestSingleString : NodeForest → Option String
  | .cons c .nil => nodeString c
  | .nil => none
  | .cons _ (.cons _ _) => none
end

/-- Python `str.strip()` on ASCII whitespace. -/
def isSpaceChar (c : Char) : Bool :=
  c == ' ' || c == '\t' || c == '\n' || c == '\r' || c == '\x0b' || c == '\x0c'

/-- Strip leading and trailing whitespace from a character list. -/
def stripList (cs : List Char) : List Char :=
  ((cs.dropWhile isSpaceChar).reverse.dropWhile isSpaceChar).reverse

/-- Python `s.strip()` (restricted to ASCII whitespace). -/
def pyStrip (s : String) : String := ⟨stripList s.data⟩

/-- Split a character list on the literal dot, mirroring how the
`"%m.%d.%Y"` pattern is anchored between the two separator dots. -/
def splitDots : List Char → List (List Char)
  | [] => [[]]
  | c :: rest =>
    if c == '.' then [] :: splitDots rest
    else
      match splitDots rest with
      | [] => [[c]]
      | p :: ps => (c :: p) :: ps

/-- Is every character an ASCII digit? -/
def allDigits (cs : List Char) : Bool := cs.all Char.isDigit

/-- Numeric value of a list of ASCII digits. -/
def digitsToNat (cs : List Char) : Nat :=
  cs.foldl (fun a c => a * 10 + (c.toNat - 48)) 0

/-- CPython `_strptime` token for `%m`: regex `1[0-2]|0[1-9]|[1-9]`, i.e.
one or two ASCII digits with value 1..12 (note: a single digit is
accepted). -/
def monthToken (cs : List Char) : Option Nat :=
  if allDigits cs ∧ (cs.length = 1 ∨ cs.length = 2) then
    let v := digitsToNat cs
    if 1 ≤ v ∧ v ≤ 12 then some v else none
  else none

/-- CPython `_strptime` token for `%d`: regex `3[01]|[12]\d|0[1-9]|[1-9]`,
i.e. one or two ASCII digits with value 1..31. -/
def dayToken (cs : List Char) : Option Nat :=
  if allDigits cs ∧ (cs.length = 1 ∨ cs.length = 2) then
    let v := digitsToNat cs
    if 1 ≤ v ∧ v ≤ 31 then some v else none
  else none

/-- CPython `_strptime` token for `%Y`: exactly four ASCII digits. -/
def yearToken (cs : List Char) : Option Nat :=
  if allDigits cs ∧ cs.length = 4 then some (digitsToNat cs) else none

/-- Gregorian leap-year rule as used by `datetime`. -/
def isLeapYear (y : Nat) : Bool :=
  y % 4 == 0 && (y % 100 != 0 || y % 400 == 0)

/-- Days in a month, as validated by the `datetime` constructor. -/
def daysInMonth (y m : Nat) : Nat :=
  if m = 2 then (if isLeapYear y then 29 else 28)
  else if m = 4 ∨ m = 6 ∨ m = 9 ∨ m = 11 then 30
  else 31

/-- The UTC date produced by
`datetime.strptime(s, "%m.%d.%Y").replace(tzinfo=timezone.utc)`:
time-of-day is always midnight (00:00:00Z), so the date triple determines
the timestamp. -/
structure UtcDate : Type where
  year : Nat
  month : Nat
  day : Nat
deriving DecidableEq

/-- `datetime.strptime(s, "%m.%d.%Y")` restricted to ASCII-digit inputs:
the whole string must be month-token `.` day-token `.` year-token, then
the `datetime` constructor checks `1 <= year` and that the day exists in
the month.  Returns `none` where CPython raises `ValueError`. -/
def strptime_mdY (s : String) : Option UtcDate :=
  match splitDots s.data with
  | [ms, ds, ys] =>
    match monthToken ms, dayToken ds, yearToken ys with
    | some m, some d, some y =>
      if 1 ≤ y ∧ d ≤ daysInMonth y m then some ⟨y, m, d⟩ else none
    | _, _, _ => none
  | _ => none

/-- The `Info` record of `make_feed.py` (attrs class with
`instance_of(str)` validators on the four string fields and
`instance_of(datetime)` on `date`). -/
structure Info : Type where
  id : String
  title : String
  description : String
  enc : String
  date : UtcDate
deriving DecidableEq

/-- The uncaught Python exceptions `extract_info` can raise, abstracted as
values ("ExtractionError" in the specification's taxonomy). -/
inductive ExtractErr : Type where
  /-- AttributeError: `find` returned `None` for the named selector and an
  attribute of `None` was accessed. -/
  | attrErrorMissingElem : String → ExtractErr
  /-- AttributeError: `.string` of the published marker was `None`, so
  `.strip()` was called on `None`. -/
  | noneString : ExtractErr
  /-- ValueError from `strptime` on the given (stripped) text. -/
  | valueError : String → ExtractErr
  /-- TypeError from an attrs validator: some field passed to `Info` was
  `None` instead of `str`. -/
  | validatorTypeError : ExtractErr
deriving DecidableEq

/-- `extract_info(li)` of `make_feed.py`, line for line.  Each `find` that
returns `None` fails immediately at the point where the code dereferences
it.  The source binds `id = ....get('href')`, `title = ....string`,
`description = ....string` and `enc = ....get('data-mp3')` as locals;
these pure optional values are inlined here into the final match, which is
the `Info(...)` construction whose attrs validators reject any `None`
field with a TypeError. -/
def extract_info (li : Node) : Except ExtractErr Info :=
  match find "a" "ep-item" li with
  | none => .error (.attrErrorMissingElem "a.ep-item")
  | some aItem =>
    match find "h3" "ep-row-title" li with
    | none => .error (.attrErrorMissingElem "h3.ep-row-title")
    | some h3 =>
      match find "p" "ep-row-desc" li with
      | none => .error (.attrErrorMissingElem "p.ep-row-desc")
      | some para =>
        match find "span" "ep-published" li with
        | none => .error (.attrErrorMissingElem "span.ep-published")
        | some sp =>
          match nodeString sp with
          | none => .error .noneString
          | some raw =>
            match strptime_mdY (pyStrip raw) with
            | none => .error (.valueError (pyStrip raw))
            | some date =>
              match find "a" "play-btn" li with
              | none => .error (.attrErrorMissingElem "a.play-btn")
              | some btn =>
                match getAttr "href" aItem, nodeString h3,
                    nodeString para, getAttr "data-mp3" btn with
                | some id, some title, some description, some enc =>
                  .ok ⟨id, title, description, enc, date⟩
                | _, _, _, _ => .error .validatorTypeError

/-- `soup("tr")`: all elements named `tr` in the document, in document
order. -/
def soupFindAllTr (doc : Node) : List Node :=
  (Node.descendants doc).filter (fun n => isNamed "tr" n)

/-- `gen_entries`: the rows of `soup("tr")` that contain a descendant
`<span class="ep-published">` (a bs4 Tag is always truthy, so the
generator's `if li.find(...)` test is exactly "the find succeeded"). -/
def gen_entries (doc : Node) : List Node :=
  (soupFindAllTr doc).filter (fun li => (find "span" "ep-published" li).isSome)

/-- Module constant `BASE_URL`. -/
def BASE_URL : String := "https://podcast.app"

/-- Module constant `PG_URL`. -/
def PG_URL : String :=
  "https://podcast.app/paul-graham-essays-audio-p1755465/?limit=250&offset=0"

/-- One feed entry as configured by `add_feed_item`: identifier, title,
link (href and rel), content, `updated` (wall-clock time of assembly,
modelled as an abstract tick) and `published` (the episode date). -/
structure FeedEntry : Type where
  entryId : String
  title : String
  linkHref : String
  linkRel : String
  content : String
  updated : Nat
  published : UtcDate
deriving DecidableEq

/-- The feed document: the feed-level metadata set by `create_base_feed`
plus the ordered entry list. -/
structure Feed : Type where
  feedId : String
  feedTitle : String
  feedLinkHref : String
  feedLinkRel : String
  logo : String
  language : String
  description : String
  docs : String
  entries : List FeedEntry
deriving DecidableEq

/-- `create_base_feed()` of `make_feed.py`. -/
def create_base_feed : Feed :=
  { feedId := PG_URL
    feedTitle := "Paul Graham Essays (Audio)"
    feedLinkHref := "https://podcast.app/paul-graham-essays-audio-p1755465/"
    feedLinkRel := "self"
    logo := "https://podcast-api-images.s3.amazonaws.com/podcast_logo_1755465_300x300.jpg"
    language := "en"
    description := "PG Podcast"
    docs := "http://www.rssboard.org/rss-specification"
    entries := [] }

/-- The entry built from one `Info` record: `fe.id(BASE_URL + info.id)`,
`fe.title(info.title)`, `fe.link(href=info.enc, rel="alternate")`,
`fe.content(info.description)`, `fe.updated(arrow.utcnow())`,
`fe.published(info.date)`. -/
def entryOf (info : Info) (now : Nat) : FeedEntry :=
  { entryId := BASE_URL ++ info.id
    title := info.title
    linkHref := info.enc
    linkRel := "alternate"
    content := info.description
    updated := now
    published := info.date }

/-- `add_feed_item(fg, info)`: `fg.add_entry(order="append")` appends the
new entry after the existing ones; `now` is the `arrow.utcnow()` sample
taken during this call. -/
def add_feed_item (fg : Feed) (info : Info) (now : Nat) : Feed :=
  { fg with entries := fg.entries ++ [entryOf info now] }

/-- The per-item loop of `main`
(`[add_feed_item(fg, extract_info(li)) for li in gen_entries(resp_pg)]`):
extract and append row by row; the first extraction failure propagates.
`k` counts the `arrow.utcnow()` samples taken so far and `clock` gives the
wall-clock value of each sample. -/
def addAll (fg : Feed) (k : Nat) (clock : Nat → Nat) : List Node → Except ExtractErr Feed
  | [] => .ok fg
  | li :: rest =>
    match extract_info li with
    | .error e => .error e
    | .ok info => addAll (add_feed_item fg info (clock k)) (k + 1) clock rest

/-- The records produced by extracting every selected row in order (the
"sequence of records" of the specification). -/
def extractAll : List Node → Except ExtractErr (List Info)
  | [] => .ok []
  | li :: rest =>
    match extract_info li with
    | .error e => .error e
    | .ok info =>
      match extractAll rest with
      | .error e => .error e
      | .ok infos => .ok (info :: infos)

/-- An HTTP response as `main` consumes it: the status line and the parsed
body (we model the body after HTML parsing). -/
structure Response : Type where
  status : Nat
  reason : String
  body : Node
deriving DecidableEq

/-- `resp_report(resp)`: "status_code reason". -/
def resp_report (resp : Response) : String :=
  toString resp.status ++ " " ++ resp.reason

/-- `requests.Response.ok`: true unless `raise_for_status` raises, which
happens exactly for status codes in 400..499 (client error) and 500..599
(server error). -/
def respOk (resp : Response) : Bool :=
  !(400 ≤ resp.status && resp.status < 600)

/-- Outcome of one run of `main` under `sys.exit(main())`:
`fetchFailed` is the `return 1` path with its critical log line;
`crashed` is an uncaught exception escaping the per-item loop (the
interpreter prints a traceback and exits with a non-zero status);
`completed` is the success path, carrying the feed handed to
`write_feed`. -/
inductive RunResult : Type where
  | fetchFailed : String → RunResult
  | crashed : ExtractErr → RunResult
  | completed : Feed → RunResult
deriving DecidableEq

/-- `main()` of `make_feed.py` as a function of the response and the
wall-clock samples. -/
def main_run (resp : Response) (clock : Nat → Nat) : RunResult :=
  if respOk resp then
    match addAll create_base_feed 0 clock (gen_entries resp.body) with
    | .error e => .crashed e
    | .ok fg => .completed fg
  else
    .fetchFailed ("PG pages download failed: " ++ resp_report resp)

/-- Process exit code of the run: `return 1` on fetch failure, exit code 1
for an uncaught exception, 0 on success (`main` returns `None`). -/
def exitCode : RunResult → Nat
  | .fetchFailed _ => 1
  | .crashed _ => 1
  | .completed _ => 0

/-- The critical log line emitted by the run (`logger.critical` is reached
only on the fetch-failure path). -/
def criticalLog : RunResult → Option String
  | .fetchFailed s => some s
  | .crashed _ => none
  | .completed _ => none

/-- State of the output feed file after the run: `write_feed` (a full
overwrite of `FEED_PATH`) runs only on the success path; every other
outcome leaves the prior file exactly as it was. -/
def fileAfter (r : RunResult) (oldFile : Option Feed) : Option Feed :=
  match r with
  | .completed fg => some fg
  | .fetchFailed _ => oldFile
  | .crashed _ => oldFile

/-- Fixture: a valid item anchor. -/
def aItemNode : Node :=
  .elem "a" ["ep-item"] [("href", "/ep1")] (forest [.text "Episode 1"])

/-- Fixture: a valid title heading. -/
def titleNode : Node :=
  .elem "h3" ["ep-row-title"] [] (forest [.text "Title 1"])

/-- Fixture: a valid description paragraph. -/
def descNode : Node :=
  .elem "p" ["ep-row-desc"] [] (forest [.text "Desc 1"])

/-- Fixture: a published marker span with the given text. -/
def spanNodeOf (s : String) : Node :=
  .elem "span" ["ep-published"] [] (forest [.text s])

/-- Fixture: a valid play-button anchor. -/
def playBtnNode : Node :=
  .elem "a" ["play-btn"] [("data-mp3", "https://cdn.example/ep1.mp3")] (forest [.text "Play"])

/-- Fixture: a full episode row whose published text is `dateText`. -/
def mkRow (dateText : String) : Node :=
  .elem "tr" [] []
    (forest [.elem "td" [] []
      (forest [aItemNode, titleNode, descNode, spanNodeOf dateText, playBtnNode])])

/-- Fixture: a fully valid row (published "01.02.2023", padded). -/
def rowA : Node := mkRow " 01.02.2023 "

/-- The record extracted from `rowA`. -/
def infoA : Info :=
  ⟨"/ep1", "Title 1", "Desc 1", "https://cdn.example/ep1.mp3", ⟨2023, 1, 2⟩⟩

/-- Fixture: a row that is valid except that the play-button anchor is
missing entirely. -/
def rowMissingPlayBtn : Node :=
  .elem "tr" [] []
    (forest [.elem "td" [] []
      (forest [aItemNode, titleNode, descNode, spanNodeOf "01.02.2023"])])

/-- Fixture: the description paragraph is present but childless, so its
`.string` is `None`. -/
def emptyDescNode : Node := .elem "p" ["ep-row-desc"] [] (forest [])

/-- Fixture: a row whose description paragraph is present but childless;
every other field is valid. -/
def rowEmptyDesc : Node :=
  .elem "tr" [] []
    (forest [.elem "td" [] []
      (forest [aItemNode, titleNode, emptyDescNode, spanNodeOf "01.02.2023", playBtnNode])])

/-- Fixture: a description paragraph whose single text child is the empty
string. -/
def emptyTextDescNode : Node := .elem "p" ["ep-row-desc"] [] (forest [.text ""])

/-- Fixture: a row whose description text is the empty string; every other
field is valid. -/
def rowEmptyTextDesc : Node :=
  .elem "tr" [] []
    (forest [.elem "td" [] []
      (forest [aItemNode, titleNode, emptyTextDescNode, spanNodeOf "01.02.2023", playBtnNode])])

/-- Fixture: a row whose publication marker carries the class
`ep-published` on a `div` instead of a `span`. -/
def rowWrongTagMarker : Node :=
  .elem "tr" [] []
    (forest [.elem "td" [] []
      (forest [aItemNode, titleNode, descNode,
        .elem "div" ["ep-published"] [] (forest [.text "01.02.2023"]),
        playBtnNode])])

/-- Fixture: a row whose title carries the class `ep-row-title` on an `h2`
instead of an `h3`; the marker is a genuine span. -/
def rowWrongTagTitle : Node :=
  .elem "tr" [] []
    (forest [.elem "td" [] []
      (forest [aItemNode,
        .elem "h2" ["ep-row-title"] [] (forest [.text "Title 1"]),
        descNode, spanNodeOf "01.02.2023", playBtnNode])])

/-- Fixture: a header-like row with no publication marker at all. -/
def rowNoMarker : Node :=
  .elem "tr" [] [] (forest [.elem "th" [] [] (forest [.text "Episode"])])

/-- Fixture: wrap rows into a document tree. -/
def docOf (rows : List Node) : Node :=
  .elem "[document]" [] []
    (forest [.elem "html" [] []
      (forest [.elem "body" [] []
        (forest [.elem "table" [] [] (forest rows)])])])

/-- Fixture: one-valid-row document. -/
def docA : Node := docOf [rowA]

/-- Fixture: a valid row followed by a marker-less row. -/
def docMixed : Node := docOf [rowA, rowNoMarker]

/-- Fixture: a valid row followed by a row missing its play button. -/
def docBad : Node := docOf [rowA, rowMissingPlayBtn]

/-- Fixture: a 200 response carrying `docA`. -/
def respA : Response := ⟨200, "OK", docA⟩

/-- Fixture: a 503 response (body irrelevant, parse never happens). -/
def resp503 : Response := ⟨503, "Service Unavailable", docA⟩

/-- Fixture: a 304 response carrying `docA`. -/
def resp304 : Response := ⟨304, "Not Modified", docA⟩

/-- Fixture clock: the k-th `arrow.utcnow()` sample of run one. -/
def clock0 : Nat → Nat := fun k => 100 + k

/-- Fixture clock: the k-th `arrow.utcnow()` sample of a later run. -/
def clock1 : Nat → Nat := fun k => 777 + k

/-- Fixture: a 200 response whose document contains a broken row. -/
def respBad : Response := ⟨200, "OK", docBad⟩

/-- The entries appended by the per-item loop for the record list
`infos`, when `k` samples of the clock were already taken. -/
def entriesWith (clock : Nat → Nat) : Nat → List Info → List FeedEntry
  | _, [] => []
  | k, info :: rest => entryOf info (clock k) :: entriesWith clock (k + 1) rest

/-- Erase the wall-clock dependent `updated` field of an entry. -/
def stripEntry (e : FeedEntry) : FeedEntry := { e with updated := 0 }

/-- Erase every entry's `updated` field of a feed. -/
def stripFeed (f : Feed) : Feed := { f with entries := f.entries.map stripEntry }

/-- The feed that the run over `respA` with `clock0` writes. -/
def feedA : Feed := add_feed_item create_base_feed infoA (clock0 0)

/-- A successful `find` returns a descendant that matches both the tag
name and the class. -/
theorem find_some {nm cls : String} {n t : Node} (h : find nm cls n = some t) :
    t ∈ Node.descendants n ∧ isElemOf nm cls t = true :=
  ⟨List.mem_of_find?_eq_some h, List.find?_some h⟩

/-- `find` succeeds exactly when some descendant matches both the tag name
and the class. -/
theorem find_isSome_iff (nm cls : String) (n : Node) :
    (find nm cls n).isSome = true ↔
      ∃ m, m ∈ Node.descendants n ∧ isElemOf nm cls m = true := by
  unfold find
  rw [List.find?_isSome]

/-- `find` returns `None` exactly when no descendant matches both the tag
name and the class. -/
theorem find_eq_none_iff (nm cls : String) (n : Node) :
    find nm cls n = none ↔
      ∀ m ∈ Node.descendants n, ¬ isElemOf nm cls m = true := by
  unfold find
  exact List.find?_eq_none

/-- Membership in `gen_entries`: a node is selected iff it is a `tr`
element of the document with a descendant `<span class="ep-published">`. -/
theorem mem_gen_entries_iff (doc n : Node) :
    n ∈ gen_entries doc ↔
      n ∈ Node.descendants doc ∧ isNamed "tr" n = true ∧
        ∃ m, m ∈ Node.descendants n ∧ isElemOf "span" "ep-published" m = true := by
  unfold gen_entries soupFindAllTr
  rw [List.mem_filter, List.mem_filter, find_isSome_iff]
  tauto

/-- `gen_entries` is a sublist of the document-order node listing, hence
keeps document order. -/
theorem gen_entries_sublist (doc : Node) :
    List.Sublist (gen_entries doc) (Node.descendants doc) :=
  List.Sublist.trans (List.filter_sublist _) (List.filter_sublist _)

/-- Characterization of successful extraction: `extract_info li = ok i`
holds exactly when all five selector lookups succeed and their attribute,
string and date payloads are the five fields of `i`. -/
theorem extract_ok_iff (li : Node) (i : Info) :
    extract_info li = .ok i ↔
      ((∃ a, find "a" "ep-item" li = some a ∧ getAttr "href" a = some i.id) ∧
       (∃ hd, find "h3" "ep-row-title" li = some hd ∧ nodeString hd = some i.title) ∧
       (∃ pa, find "p" "ep-row-desc" li = some pa ∧ nodeString pa = some i.description) ∧
       (∃ sp s, find "span" "ep-published" li = some sp ∧ nodeString sp = some s ∧
          strptime_mdY (pyStrip s) = some i.date) ∧
       (∃ b, find "a" "play-btn" li = some b ∧ getAttr "data-mp3" b = some i.enc)) := by
  obtain ⟨iid, ititle, idesc, ienc, idate⟩ := i
  constructor
  · intro h
    rw [extract_info.eq_def] at h
    split at h
    · exact Except.noConfusion h
    next aItem hA =>
      split at h
      · exact Except.noConfusion h
      next h3 hH =>
        split at h
        · exact Except.noConfusion h
        next para hP =>
          split at h
          · exact Except.noConfusion h
          next sp hS =>
            split at h
            · exact Except.noConfusion h
            next raw hraw =>
              split at h
              · exact Except.noConfusion h
              next date hdate =>
                split at h
                · exact Except.noConfusion h
                next btn hB =>
                  split at h
                  next idv titlev descv encv hid hti hde hen =>
                    injection h with h
                    injection h with h1 h2 h3x h4 h5
                    subst h1; subst h2; subst h3x; subst h4; subst h5
                    exact ⟨⟨aItem, hA, hid⟩, ⟨h3, hH, hti⟩, ⟨para, hP, hde⟩,
                      ⟨sp, raw, hS, hraw, hdate⟩, ⟨btn, hB, hen⟩⟩
                  next => exact Except.noConfusion h
  · rintro ⟨⟨a, hA, hid⟩, ⟨hd, hH, hti⟩, ⟨pa, hP, hde⟩, ⟨sp, s, hS, hraw, hdate⟩, ⟨b, hB, hen⟩⟩
    rw [extract_info.eq_def]
    simp only [hA, hH, hP, hS, hraw, hdate, hB, hid, hti, hde, hen]


/-- The interleaved extract-and-append loop equals: extract all records
first, then append the entries they generate, in order. -/
theorem addAll_eq (clock : Nat → Nat) :
    ∀ (ls : List Node) (fg : Feed) (k : Nat),
      addAll fg k clock ls =
        match extractAll ls with
        | .error e => .error e
        | .ok infos => .ok { fg with entries := fg.entries ++ entriesWith clock k infos } := by
  intro ls
  induction ls with
  | nil => intro fg k; simp [addAll, extractAll, entriesWith]
  | cons li rest ih =>
    intro fg k
    simp only [addAll, extractAll]
    cases h : extract_info li with
    | error e => simp
    | ok info =>
      dsimp only
      rw [ih]
      cases h2 : extractAll rest with
      | error e => simp
      | ok infos => simp [entriesWith, add_feed_item]

/-- One entry is appended per record. -/
theorem entriesWith_length (clock : Nat → Nat) :
    ∀ (infos : List Info) (k : Nat), (entriesWith clock k infos).length = infos.length := by
  intro infos
  induction infos with
  | nil => intro k; rfl
  | cons i rest ih => intro k; simp [entriesWith, ih]

/-- The appended entries are exactly the records mapped positionally. -/
theorem entriesWith_mapIdx (clock : Nat → Nat) :
    ∀ (infos : List Info) (k : Nat),
      entriesWith clock k infos = infos.mapIdx (fun j info => entryOf info (clock (k + j))) := by
  intro infos
  induction infos with
  | nil => intro k; rfl
  | cons i rest ih =>
    intro k
    rw [List.mapIdx_cons, entriesWith, ih (k + 1)]
    refine congrArg₂ _ (by rw [Nat.add_zero]) ?_
    have hf : (fun j info => entryOf info (clock (k + 1 + j))) =
        (fun j info => entryOf info (clock (k + (j + 1)))) := by
      funext j info
      have : k + 1 + j = k + (j + 1) := by omega
      rw [this]
    rw [hf]

/-- After erasing `updated`, the appended entries do not depend on the
clock at all. -/
theorem entriesWith_strip (clock : Nat → Nat) :
    ∀ (infos : List Info) (k : Nat),
      (entriesWith clock k infos).map stripEntry = infos.map (fun i => entryOf i 0) := by
  intro infos
  induction infos with
  | nil => intro k; rfl
  | cons i rest ih =>
    intro k
    simp [entriesWith, ih, stripEntry, entryOf]

/-- The `updated` fields of the appended entries are exactly the
successive clock samples. -/
theorem entriesWith_updated (clock : Nat → Nat) :
    ∀ (infos : List Info) (k : Nat),
      (entriesWith clock k infos).map (fun e => e.updated) =
        (List.range infos.length).map (fun j => clock (k + j)) := by
  intro infos
  induction infos with
  | nil => intro k; rfl
  | cons i rest ih =>
    intro k
    simp only [List.length_cons]
    rw [List.range_succ_eq_map]
    simp only [entriesWith, List.map_cons, List.map_map, ih (k + 1), entryOf]
    refine congrArg₂ _ (by rw [Nat.add_zero]) ?_
    apply List.map_congr_left
    intro j hj
    simp [Function.comp]
    refine congrArg _ (by omega)

/-- A run completes exactly when the fetch is treated as successful and
every selected row extracts; the resulting feed is the base feed plus the
appended entries. -/
theorem main_run_completed_iff (resp : Response) (clock : Nat → Nat) (fg : Feed) :
    main_run resp clock = .completed fg ↔
      respOk resp = true ∧ ∃ infos, extractAll (gen_entries resp.body) = .ok infos ∧
        fg = { create_base_feed with entries := entriesWith clock 0 infos } := by
  unfold main_run
  cases hok : respOk resp with
  | false => simp
  | true =>
    rw [if_pos rfl]
    rw [addAll_eq]
    cases h : extractAll (gen_entries resp.body) with
    | error e => simp
    | ok infos =>
      simp only [create_base_feed]
      constructor
      · intro hc
        injection hc with hc
        exact ⟨by trivial, infos, rfl, by rw [← hc]; simp⟩
      · rintro ⟨-, infos2, h2, hfg⟩
        injection h2 with h2
        subst h2
        rw [hfg]
        simp

/-- If any row in the list fails extraction, extracting the whole list
fails. -/
theorem extractAll_error_of_mem :
    ∀ (ls : List Node), (∃ li ∈ ls, ∃ e, extract_info li = .error e) →
      ∃ e, extractAll ls = .error e := by
  intro ls
  induction ls with
  | nil => rintro ⟨li, hmem, -⟩; exact absurd hmem (List.not_mem_nil li)
  | cons hd rest ih =>
    rintro ⟨li, hmem, e, herr⟩
    cases hhd : extract_info hd with
    | error e2 => exact ⟨e2, by simp [extractAll, hhd]⟩
    | ok info =>
      rcases List.mem_cons.mp hmem with heq | hmem2
      · subst heq; rw [hhd] at herr; exact Except.noConfusion herr
      · obtain ⟨e3, h3⟩ := ih ⟨li, hmem2, e, herr⟩
        exact ⟨e3, by simp [extractAll, hhd, h3]⟩

/-- C1 (counterexample): the claim "success iff 2xx" fails.  Status 304 is
not in the 2xx class, yet the run treats the fetch as successful
(`requests`' `ok` is status < 400): it exits 0, logs nothing critical and
writes the feed file. -/
theorem C1_counterexample :
    respOk resp304 = true ∧
    ¬ (200 ≤ resp304.status ∧ resp304.status ≤ 299) ∧
    exitCode (main_run resp304 clock0) = 0 ∧
    criticalLog (main_run resp304 clock0) = none ∧
    fileAfter (main_run resp304 clock0) none ≠ none :=
  ⟨rfl, by decide, rfl, rfl, by decide⟩

/-- C1 (amended): the run treats the fetch as successful iff the status
code lies outside 400..599 (`requests.Response.ok`), not iff it is 2xx;
for every status in 400..599 the run logs one critical line equal to
"PG pages download failed: " followed by the numeric status code and the
reason phrase, exits with code 1, and neither writes nor modifies the
output feed file. -/
theorem C1_amended :
    ∀ (resp : Response) (clock : Nat → Nat) (old : Option Feed),
      (respOk resp = true ↔ ¬ (400 ≤ resp.status ∧ resp.status < 600)) ∧
      (400 ≤ resp.status → resp.status < 600 →
        main_run resp clock = .fetchFailed ("PG pages download failed: " ++ resp_report resp) ∧
        resp_report resp = toString resp.status ++ " " ++ resp.reason ∧
        criticalLog (main_run resp clock) =
          some ("PG pages download failed: " ++ resp_report resp) ∧
        exitCode (main_run resp clock) = 1 ∧
        fileAfter (main_run resp clock) old = old) := by
  intro resp clock old
  constructor
  · unfold respOk
    simp
    omega
  · intro h4 h6
    have hok : respOk resp = false := by
      unfold respOk
      simp
      omega
    have hmain : main_run resp clock =
        .fetchFailed ("PG pages download failed: " ++ resp_report resp) := by
      unfold main_run
      rw [hok]
      simp
    exact ⟨hmain, rfl, by rw [hmain]; rfl, by rw [hmain]; rfl, by rw [hmain]; rfl⟩

/-- C1 (witness): a 503 response yields exit code 1, a critical log line
containing "503" and the reason phrase, and an unmodified (absent) output
file. -/
theorem C1_witness :
    exitCode (main_run resp503 clock0) = 1 ∧
    criticalLog (main_run resp503 clock0) =
      some "PG pages download failed: 503 Service Unavailable" ∧
    fileAfter (main_run resp503 clock0) none = none := by
  have h := (C1_amended resp503 clock0 none).2 (by decide) (by decide)
  exact ⟨h.2.2.2.1, h.2.2.1.trans (by decide), h.2.2.2.2⟩

/-- C2 (counterexample): the claim says "3.15.2024" must fail extraction,
but `strptime` with `%m.%d.%Y` accepts a one-digit month, so it parses to
2024-03-15 and a row carrying it extracts successfully. -/
theorem C2_counterexample :
    strptime_mdY "3.15.2024" = some ⟨2024, 3, 15⟩ ∧
    extract_info (mkRow "3.15.2024") =
      .ok ⟨"/ep1", "Title 1", "Desc 1", "https://cdn.example/ep1.mp3", ⟨2024, 3, 15⟩⟩ :=
  ⟨rfl, rfl⟩

/-- C2 (amended): "03.15.2024" parses to the UTC timestamp
2024-03-15T00:00:00Z and "2024-03-15" fails extraction, as claimed; but
the format is not strict two-digit: `strptime` also accepts one-digit
months and days ("3.15.2024" parses to the same date).  Still rejected
are: two-digit years, three-digit months, month 00, and out-of-range days
such as 02.30. -/
theorem C2_amended :
    strptime_mdY "03.15.2024" = some ⟨2024, 3, 15⟩ ∧
    strptime_mdY "3.15.2024" = some ⟨2024, 3, 15⟩ ∧
    strptime_mdY "2024-03-15" = none ∧
    strptime_mdY "03.15.24" = none ∧
    strptime_mdY "003.15.2024" = none ∧
    strptime_mdY "00.15.2024" = none ∧
    strptime_mdY "02.30.2024" = none ∧
    extract_info (mkRow "03.15.2024") =
      .ok ⟨"/ep1", "Title 1", "Desc 1", "https://cdn.example/ep1.mp3", ⟨2024, 3, 15⟩⟩ ∧
    extract_info (mkRow "2024-03-15") = .error (.valueError "2024-03-15") :=
  ⟨rfl, rfl, rfl, rfl, rfl, rfl, rfl, rfl, rfl⟩

/-- C3: extraction is all-or-nothing per row.  `extract_info` succeeds
with a record `i` exactly when all five selector lookups succeed and their
attribute/string/date payloads are the five fields of `i` (so no partial
record is ever produced), and whenever any required sub-element is absent
the extraction fails with an error. -/
theorem C3_extraction_all_or_nothing :
    ∀ (li : Node),
      (∀ i : Info, extract_info li = .ok i ↔
        ((∃ a, find "a" "ep-item" li = some a ∧ getAttr "href" a = some i.id) ∧
         (∃ hd, find "h3" "ep-row-title" li = some hd ∧ nodeString hd = some i.title) ∧
         (∃ pa, find "p" "ep-row-desc" li = some pa ∧ nodeString pa = some i.description) ∧
         (∃ sp s, find "span" "ep-published" li = some sp ∧ nodeString sp = some s ∧
            strptime_mdY (pyStrip s) = some i.date) ∧
         (∃ b, find "a" "play-btn" li = some b ∧ getAttr "data-mp3" b = some i.enc))) ∧
      ((find "a" "ep-item" li = none ∨ find "h3" "ep-row-title" li = none ∨
        find "p" "ep-row-desc" li = none ∨ find "span" "ep-published" li = none ∨
        find "a" "play-btn" li = none) → ∃ e, extract_info li = .error e) := by
  intro li
  refine ⟨fun i => extract_ok_iff li i, ?_⟩
  intro habs
  cases hres : extract_info li with
  | error e => exact ⟨e, rfl⟩
  | ok i =>
    obtain ⟨⟨a, hA, -⟩, ⟨hd, hH, -⟩, ⟨pa, hP, -⟩, ⟨sp, s, hS, -, -⟩, ⟨b, hB, -⟩⟩ :=
      (extract_ok_iff li i).mp hres
    rcases habs with h | h | h | h | h <;> simp_all

/-- C3 (witness): a row missing its play-button anchor fails extraction,
and a complete row extracts with all five fields populated. -/
theorem C3_witness :
    (∃ e, extract_info rowMissingPlayBtn = .error e) ∧ extract_info rowA = .ok infoA := by
  constructor
  · exact (C3_extraction_all_or_nothing rowMissingPlayBtn).2
      (Or.inr (Or.inr (Or.inr (Or.inr (by decide)))))
  · exact ((C3_extraction_all_or_nothing rowA).1 infoA).mpr
      ⟨⟨aItemNode, by decide, by decide⟩, ⟨titleNode, by decide, by decide⟩,
       ⟨descNode, by decide, by decide⟩,
       ⟨spanNodeOf " 01.02.2023 ", " 01.02.2023 ", by decide, by decide, by decide⟩,
       ⟨playBtnNode, by decide, by decide⟩⟩

/-- C4: extraction failure is all-or-nothing for the run.  If any selected
row fails extraction (and the fetch was ok), the run crashes with the
uncaught error, the process status is non-zero, and the output file is
left exactly as it was; moreover every run either leaves the file
untouched or fully rewrites it with the assembled feed. -/
theorem C4_all_or_nothing_run :
    ∀ (resp : Response) (clock : Nat → Nat) (old : Option Feed),
      ((∃ li ∈ gen_entries resp.body, ∃ e, extract_info li = .error e) →
        respOk resp = true →
        ∃ e, main_run resp clock = .crashed e ∧ exitCode (main_run resp clock) ≠ 0 ∧
          fileAfter (main_run resp clock) old = old) ∧
      (fileAfter (main_run resp clock) old = old ∨
        ∃ fg, main_run resp clock = .completed fg ∧
          fileAfter (main_run resp clock) old = some fg) := by
  intro resp clock old
  constructor
  · intro hfail hok
    obtain ⟨e, he⟩ := extractAll_error_of_mem _ hfail
    have hmain : main_run resp clock = .crashed e := by
      unfold main_run
      rw [hok, if_pos rfl, addAll_eq, he]
    exact ⟨e, hmain, by rw [hmain]; simp [exitCode], by rw [hmain]; rfl⟩
  · cases hm : main_run resp clock with
    | fetchFailed s => exact Or.inl rfl
    | crashed e => exact Or.inl rfl
    | completed fg => exact Or.inr ⟨fg, rfl, rfl⟩

/-- C4 (witness): a document with one valid row and one row missing its
play button crashes the whole run and leaves the prior feed file as it
was. -/
theorem C4_witness :
    ∃ e, main_run respBad clock0 = .crashed e ∧
      exitCode (main_run respBad clock0) ≠ 0 ∧
      fileAfter (main_run respBad clock0) (some create_base_feed) = some create_base_feed :=
  (C4_all_or_nothing_run respBad clock0 (some create_base_feed)).1
    ⟨rowMissingPlayBtn, by decide, ⟨.attrErrorMissingElem "a.play-btn", rfl⟩⟩ (by decide)

/-- C5: filter completeness.  The entry selector yields exactly the `tr`
nodes of the document that contain a descendant
`<span class="ep-published">`, and the selection is a sublist of the
document-order node listing (document order); rows lacking the marker are
excluded. -/
theorem C5_filter_completeness :
    ∀ (doc n : Node),
      (n ∈ gen_entries doc ↔
        n ∈ Node.descendants doc ∧ isNamed "tr" n = true ∧
          ∃ m, m ∈ Node.descendants n ∧ isElemOf "span" "ep-published" m = true) ∧
      List.Sublist (gen_entries doc) (Node.descendants doc) :=
  fun doc n => ⟨mem_gen_entries_iff doc n, gen_entries_sublist doc⟩

/-- C5 (witness): in a document with a valid row and a marker-less header
row, only the valid row is selected. -/
theorem C5_witness :
    rowA ∈ gen_entries docMixed ∧ gen_entries docMixed = [rowA] :=
  ⟨((C5_filter_completeness docMixed rowA).1).mpr
      ⟨by decide, by decide, ⟨spanNodeOf " 01.02.2023 ", by decide, by decide⟩⟩,
   by decide⟩

/-- C6: order preservation.  Whenever a run completes, the feed's entry
sequence is exactly the record sequence extracted from the selected rows,
positionally in selector (document) order — no sorting, no reordering, no
deduplication. -/
theorem C6_order_preservation :
    ∀ (resp : Response) (clock : Nat → Nat) (fg : Feed),
      main_run resp clock = .completed fg →
      ∃ infos, extractAll (gen_entries resp.body) = .ok infos ∧
        fg.entries = infos.mapIdx (fun k info => entryOf info (clock k)) := by
  intro resp clock fg h
  obtain ⟨-, infos, hex, hfg⟩ := (main_run_completed_iff resp clock fg).mp h
  refine ⟨infos, hex, ?_⟩
  rw [hfg]
  dsimp only
  rw [entriesWith_mapIdx]
  simp only [Nat.zero_add]

/-- C6 (witness): the completed run over the one-row document produces
exactly the entries of its extracted record list, in order. -/
theorem C6_witness :
    ∃ infos, extractAll (gen_entries respA.body) = .ok infos ∧
      feedA.entries = infos.mapIdx (fun k info => entryOf info (clock0 k)) :=
  C6_order_preservation respA clock0 feedA rfl

/-- C7: for every appended record, the entry identifier is the fixed base
URL concatenated with the record's `id` field, and the entry link is the
record's enclosure URL (`enc` field) with relation "alternate" — two
distinct record fields. -/
theorem C7_entry_identifier_and_link :
    ∀ (info : Info) (now : Nat) (fg : Feed),
      (entryOf info now).entryId = BASE_URL ++ info.id ∧
      (entryOf info now).linkHref = info.enc ∧
      (entryOf info now).linkRel = "alternate" ∧
      (add_feed_item fg info now).entries = fg.entries ++ [entryOf info now] :=
  fun _ _ _ => ⟨rfl, rfl, rfl, rfl⟩

/-- C8 (counterexample): the claim says a present description paragraph
makes extraction succeed, but a present yet childless
`<p class="ep-row-desc">` has `.string = None`, so the attrs validator
rejects the record: extraction fails even though every other field of the
row is valid. -/
theorem C8_counterexample :
    find "p" "ep-row-desc" rowEmptyDesc = some emptyDescNode ∧
    nodeString emptyDescNode = none ∧
    extract_info rowEmptyDesc = .error .validatorTypeError :=
  ⟨by decide, rfl, rfl⟩

/-- C8 (amended): every successful extraction takes its description from
the paragraph's `.string` value, and that value may be the empty string
(extraction then succeeds with an empty description field); but a present
paragraph whose `.string` is undefined (e.g. no children) fails the
extraction — element presence alone is insufficient. -/
theorem C8_amended :
    (∀ (li : Node) (i : Info), extract_info li = .ok i →
      ∃ pa, find "p" "ep-row-desc" li = some pa ∧ nodeString pa = some i.description) ∧
    extract_info rowEmptyTextDesc =
      .ok ⟨"/ep1", "Title 1", "", "https://cdn.example/ep1.mp3", ⟨2023, 1, 2⟩⟩ ∧
    extract_info rowEmptyDesc = .error .validatorTypeError := by
  refine ⟨?_, rfl, rfl⟩
  intro li i h
  exact ((extract_ok_iff li i).mp h).2.2.1

/-- C8 (witness): the valid fixture row's description field equals its
paragraph's string. -/
theorem C8_witness :
    ∃ pa, find "p" "ep-row-desc" rowA = some pa ∧ nodeString pa = some infoA.description :=
  C8_amended.1 rowA infoA rfl

/-- C9: two-run determinism.  Two runs over the same response body both
complete (or neither does), their feeds agree entirely once each entry's
`updated` field is erased, and the `updated` fields are exactly the
wall-clock samples taken during each run's feed assembly. -/
theorem C9_two_run_determinism :
    ∀ (resp : Response) (c1 c2 : Nat → Nat) (f1 : Feed),
      main_run resp c1 = .completed f1 →
      ∃ f2, main_run resp c2 = .completed f2 ∧
        stripFeed f1 = stripFeed f2 ∧
        f1.entries.map (fun e => e.updated) = (List.range f1.entries.length).map c1 ∧
        f2.entries.map (fun e => e.updated) = (List.range f2.entries.length).map c2 := by
  intro resp c1 c2 f1 h1
  obtain ⟨hok, infos, hex, hf1⟩ := (main_run_completed_iff resp c1 f1).mp h1
  have hupd : ∀ (c : Nat → Nat),
      (entriesWith c 0 infos).map (fun e => e.updated) =
        (List.range (entriesWith c 0 infos).length).map c := by
    intro c
    rw [entriesWith_updated, entriesWith_length]
    exact List.map_congr_left (fun j hj => by rw [Nat.zero_add])
  refine ⟨{ create_base_feed with entries := entriesWith c2 0 infos },
    (main_run_completed_iff resp c2 _).mpr ⟨hok, infos, hex, rfl⟩, ?_, ?_, ?_⟩
  · rw [hf1]
    unfold stripFeed
    dsimp only
    rw [entriesWith_strip, entriesWith_strip]
  · rw [hf1]
    dsimp only
    exact hupd c1
  · dsimp only
    exact hupd c2

/-- C9 (witness): two runs over the one-row document with different clocks
agree except on the `updated` fields, which equal each run's clock
samples. -/
theorem C9_witness :
    ∃ f2, main_run respA clock1 = .completed f2 ∧
      stripFeed feedA = stripFeed f2 ∧
      feedA.entries.map (fun e => e.updated) = (List.range feedA.entries.length).map clock0 ∧
      f2.entries.map (fun e => e.updated) = (List.range f2.entries.length).map clock1 :=
  C9_two_run_determinism respA clock0 clock1 feedA rfl

/-- C10: selection and extraction match tag name as well as class.  Every
`find` hit has both the requested tag name and the class; if no descendant
has both, `find` treats the element as absent; every selected row contains
a genuine `<span class="ep-published">`; every successful extraction found
an `<a class="ep-item">`, an `<h3 class="ep-row-title">`, a
`<p class="ep-row-desc">`, a `<span class="ep-published">` and an
`<a class="play-btn">`; concretely, a `div` bearing class "ep-published"
does not qualify a row, and an `h2` bearing class "ep-row-title" fails the
extraction. -/
theorem C10_tag_names_matter :
    (∀ (nm cls : String) (n t : Node), find nm cls n = some t → isElemOf nm cls t = true) ∧
    (∀ (nm cls : String) (n : Node),
      (∀ m ∈ Node.descendants n, isElemOf nm cls m = false) → find nm cls n = none) ∧
    (∀ (doc n : Node), n ∈ gen_entries doc →
      ∃ m, m ∈ Node.descendants n ∧ isElemOf "span" "ep-published" m = true) ∧
    (∀ (li : Node) (i : Info), extract_info li = .ok i →
      (∃ a, a ∈ Node.descendants li ∧ isElemOf "a" "ep-item" a = true) ∧
      (∃ hd, hd ∈ Node.descendants li ∧ isElemOf "h3" "ep-row-title" hd = true) ∧
      (∃ pa, pa ∈ Node.descendants li ∧ isElemOf "p" "ep-row-desc" pa = true) ∧
      (∃ sp, sp ∈ Node.descendants li ∧ isElemOf "span" "ep-published" sp = true) ∧
      (∃ b, b ∈ Node.descendants li ∧ isElemOf "a" "play-btn" b = true)) ∧
    gen_entries (docOf [rowWrongTagMarker]) = [] ∧
    extract_info rowWrongTagTitle = .error (.attrErrorMissingElem "h3.ep-row-title") := by
  refine ⟨?_, ?_, ?_, ?_, by decide, rfl⟩
  · intro nm cls n t h
    exact (find_some h).2
  · intro nm cls n h
    rw [find_eq_none_iff]
    intro m hm
    simp [h m hm]
  · intro doc n hmem
    exact ((mem_gen_entries_iff doc n).mp hmem).2.2
  · intro li i h
    obtain ⟨⟨a, hA, -⟩, ⟨hd, hH, -⟩, ⟨pa, hP, -⟩, ⟨sp, s, hS, -, -⟩, ⟨b, hB, -⟩⟩ :=
      (extract_ok_iff li i).mp h
    exact ⟨⟨a, (find_some hA).1, (find_some hA).2⟩,
      ⟨hd, (find_some hH).1, (find_some hH).2⟩,
      ⟨pa, (find_some hP).1, (find_some hP).2⟩,
      ⟨sp, (find_some hS).1, (find_some hS).2⟩,
      ⟨b, (find_some hB).1, (find_some hB).2⟩⟩

/-- C10 (witness): the selected fixture row contains a genuine
`<span class="ep-published">` descendant, while a `div` carrying that
class does not satisfy the span selector. -/
theorem C10_witness :
    (∃ m, m ∈ Node.descendants rowA ∧ isElemOf "span" "ep-published" m = true) ∧
    isElemOf "span" "ep-published"
      (Node.elem "div" ["ep-published"] [] (forest [.text "01.02.2023"])) = false :=
  ⟨C10_tag_names_matter.2.2.1 docA rowA (by decide), by decide⟩
